import Mathlib

/-!
Verification of the PVC-recreation workflow of jimmidyson/go-fabric8
(`cmds/erase_pvc.go`), as a shallow embedding in Lean 4.

The manifest sanitizer, the attached-pod discovery and the service-label
expansion are embedded as pure functions over lists of text lines; the
workflow itself (`erasePVC`) is embedded as a function from a cluster
oracle (the outcomes of the external `kubectl` invocations and of the
client API reads) to the observable run result: the ordered list of
cluster requests issued, the messages printed, and the final outcome.
-/

namespace GoFabric8

/-- The fixed exclusion patterns removed from an exported manifest
(`removedExportedLine` in `cmds/erase_pvc.go`). -/
def removedExportedLine : List String :=
  ["selfLink", "resourceVersion", "uid", "creationTimestamp",
   "kubectl.kubernetes.io/last-applied-configuration:",
   "control-plane.alpha.kubernetes.io/leader:",
   "pv.kubernetes.io/",
   "volume.beta.kubernetes.io/",
   "volumeName"]

/-- Go `strings.HasPrefix(s, p)` on character lists: `hasPrefixChars p s`
is true when `p` is an initial segment of `s`. -/
def hasPrefixChars : List Char → List Char → Bool
  | [], _ => true
  | _ :: _, [] => false
  | p :: ps, c :: cs => p = c && hasPrefixChars ps cs

/-- Go `strings.TrimSpace` on character lists: leading and trailing
whitespace characters are removed.  (The manifests at issue are ASCII, on
which `Char.isWhitespace` and the Go space predicate agree.) -/
def trimSpace (l : List Char) : List Char :=
  ((l.dropWhile Char.isWhitespace).reverse.dropWhile Char.isWhitespace).reverse

/-- A manifest line is excluded when its trimmed content starts with one of
the fixed exclusion patterns.  This is the inner loop over
`removedExportedLine` setting `stop` in `erasePVC` (lines 137-144 of
`cmds/erase_pvc.go`): `nsLine := strings.TrimSpace(text)` followed by
`strings.HasPrefix(nsLine, l)` for each pattern `l`. -/
def isExcludedLine (text : String) : Bool :=
  removedExportedLine.any (fun l => hasPrefixChars l.data (trimSpace text.data))

/-- The sanitizer scan loop of `erasePVC` (lines 132-159 of
`cmds/erase_pvc.go`), over the remaining lines, carrying the `inStatus`
flag.  Each line is processed exactly as in the source: an excluded line is
skipped; a line literally equal to `status:` sets `inStatus` and is
skipped; otherwise, when `inStatus` holds, the source evaluates
`string(text[0]) != " "` -- indexing byte 0 of the line, which in Go panics
on an empty line; the embedding returns `none` there.  A non-space first
character clears `inStatus` and the line is kept; a space first character
keeps `inStatus` and skips the line.  Outside a status block the line is
kept. -/
def sanitizeLoop (inStatus : Bool) : List String → Option (List String)
  | [] => some []
  | text :: rest =>
    if isExcludedLine text then
      sanitizeLoop inStatus rest
    else if text = "status:" then
      sanitizeLoop true rest
    else if inStatus then
      match text.data with
      | [] => none
      | c :: _ =>
        if c = ' ' then sanitizeLoop true rest
        else (sanitizeLoop false rest).map (fun ys => text :: ys)
    else
      (sanitizeLoop false rest).map (fun ys => text :: ys)

/-- Sanitization of a manifest, given as its ordered list of lines: the
scanner loop of `erasePVC` started with `inStatus := false`.  Returns
`none` when the Go code would panic (empty line while inside a `status:`
block), otherwise `some` of the kept lines (`outputYAML`). -/
def sanitize (lines : List String) : Option (List String) :=
  sanitizeLoop false lines

/-- The token list obtained by cutting a character list at each newline
character; the final token is empty exactly when the text ends in a
newline.  This follows the splitting performed by the line scanner that
`erasePVC` runs over the fetched manifest text. -/
def splitNl : List Char → List (List Char)
  | [] => [[]]
  | c :: cs =>
    if c = '\n' then [] :: splitNl cs
    else
      match splitNl cs with
      | [] => [[c]]
      | t :: ts => (c :: t) :: ts

/-- The `dropCR` step of the Go line scanner: one trailing carriage return
is removed from a scanned line. -/
def dropCR (l : List Char) : List Char :=
  if l.getLast? = some '\r' then l.dropLast else l

/-- The lines the `bufio.Scanner` in `erasePVC` yields for a given text:
the newline-separated tokens, without a final empty token for a trailing
newline, each with one trailing carriage return removed. -/
def linesOf (s : String) : List String :=
  let parts := splitNl s.data
  let parts := if parts.getLast? = some [] then parts.dropLast else parts
  parts.map (fun l => String.mk (dropCR l))

/-- A pod as the discovery scan sees it: its name and the names of the
volumes declared in its spec, in declaration order. -/
structure Pod where
  name : String
  volumes : List String
  deriving DecidableEq

/-- The function `findPodsAttachedtoPVC` (lines 195-211 of
`cmds/erase_pvc.go`): for each listed pod, for each declared volume, when
the volume name equals the target, the pod name is appended to the
result. -/
def findPodsAttachedtoPVC (findVolume : String) (pods : List Pod) : List String :=
  pods.flatMap (fun item =>
    item.volumes.flatMap (fun volume => if volume = findVolume then [item.name] else []))

/-- The service-label expansion loop of `erasePVC` (lines 114-124 of
`cmds/erase_pvc.go`).  The Go `for ... range attachedpods` evaluates the
range expression once, so the loop visits exactly the elements the slice
held when the loop started, while appends go to the growing accumulator:
the first argument is the snapshot still to visit, the second the
accumulated slice.  For each visited pod the value of its `service` label
is read (`svcLabel`); when non-empty, the pods depending on that service
(`podsOfService`) are appended one by one. -/
def expandLoop (svcLabel : String → String) (podsOfService : String → List String) :
    List String → List String → List String
  | [], acc => acc
  | pod :: rest, acc =>
    let serviceName := svcLabel pod
    if serviceName = "" then expandLoop svcLabel podsOfService rest acc
    else expandLoop svcLabel podsOfService rest (acc ++ podsOfService serviceName)

/-- The attached-pod set after the service-label expansion step, starting
from the discovered set. -/
def expandPods (svcLabel : String → String) (podsOfService : String → List String)
    (attached : List String) : List String :=
  expandLoop svcLabel podsOfService attached attached

/-- A request the workflow issues against the cluster through the external
`kubectl` binary. -/
inductive Req where
  | getPVC
  | delPVC
  | createPVC
  | delPod (pod : String)
  deriving DecidableEq

/-- Modelled from the spec: `util.Fatal` (the `util` package is not among
the sources here) prints its message and halts the process with a non-zero
exit status -- spec section 7: every fatal error prints the failing
external command and its raw output before halting with non-zero exit
status.  A `fatal` outcome therefore carries the printed message and ends
the run with nothing further attempted; `panicked` is the Go runtime panic
of the out-of-bounds line indexing in the sanitizer. -/
inductive Outcome where
  | success
  | fatal (msg : String)
  | panicked
  deriving DecidableEq

/-- The observable result of one workflow run: the cluster requests issued
in order, the non-fatal messages printed in order, and the outcome. -/
structure RunResult where
  requests : List Req
  messages : List String
  outcome : Outcome
  deriving DecidableEq

/-- The cluster as the workflow observes it: the listed pods (with their
volume specs), the `service` label value of each pod, the pods attached to
each service, and the (output, error) pair each external `kubectl`
invocation returns. -/
structure Cluster where
  pods : List Pod
  svcLabel : String → String
  podsOfService : String → List String
  getPVC : String × Option String
  delPVC : String × Option String
  createPVC : String × Option String
  delPod : String → String × Option String

/-- The message each failing command site passes to `util.Fatal`:
the string `Error while running cmd: ` followed by the space-joined
command, ` Error: `, the error text, ` Output: `, the raw output, and a
newline. -/
def fatalCmdMsg (cmd : List String) (errMsg output : String) : String :=
  "Error while running cmd: " ++ String.intercalate " " cmd ++ " Error: " ++ errMsg
    ++ " Output: " ++ output ++ "\n"

/-- The success message printed after each pod deletion. -/
def successPodMsg (pod volumeName : String) : String :=
  "Pod " ++ pod ++ " attached to " ++ volumeName ++ " has been deleted.\n"

/-- The success message printed when the workflow completes. -/
def successVolumeMsg (volumeName : String) : String :=
  "Volume: " ++ volumeName ++ " has been recreated.\n"

/-- The pod-eviction loop of `erasePVC` (lines 178-185 of
`cmds/erase_pvc.go`): each attached pod is deleted in order; a failing
deletion calls `util.Fatal` with the command, error and output, so the
remaining pods are not visited; after the loop the final success message
is printed. -/
def evictAll (delPod : String → String × Option String) (userNS volumeName : String) :
    List String → List Req → List String → RunResult
  | [], reqs, msgs =>
    { requests := reqs, messages := msgs ++ [successVolumeMsg volumeName],
      outcome := Outcome.success }
  | pod :: rest, reqs, msgs =>
    match delPod pod with
    | (output, some e) =>
      { requests := reqs ++ [Req.delPod pod], messages := msgs,
        outcome := Outcome.fatal (fatalCmdMsg ["delete", "-n", userNS, "pod", pod] e output) }
    | (_, none) =>
      evictAll delPod userNS volumeName rest (reqs ++ [Req.delPod pod])
        (msgs ++ [successPodMsg pod volumeName])

/-- The body of `erasePVC` (lines 111-190 of `cmds/erase_pvc.go`), from
pod discovery onwards, against the cluster oracle: discovery, single-pass
service-label expansion, manifest fetch (fatal on error), sanitization
(the Go panic surfaces as `Outcome.panicked`), claim deletion (fatal on
error), claim creation from the sanitized manifest written to `tmpfile`
(fatal on error), then the pod-eviction loop. -/
def erasePVCrun (c : Cluster) (userNS volumeName tmpfile : String) : RunResult :=
  let attachedpods :=
    expandPods c.svcLabel c.podsOfService (findPodsAttachedtoPVC volumeName c.pods)
  match c.getPVC with
  | (gout, some gerr) =>
    { requests := [Req.getPVC], messages := [],
      outcome := Outcome.fatal
        (fatalCmdMsg ["get", "-o", "yaml", "-n", userNS, "pvc", volumeName] gerr gout) }
  | (gout, none) =>
    match sanitize (linesOf gout) with
    | none => { requests := [Req.getPVC], messages := [], outcome := Outcome.panicked }
    | some _outputYAML =>
      match c.delPVC with
      | (dout, some derr) =>
        { requests := [Req.getPVC, Req.delPVC], messages := [],
          outcome := Outcome.fatal
            (fatalCmdMsg ["delete", "-n", userNS, "pvc", volumeName] derr dout) }
      | (_, none) =>
        match c.createPVC with
        | (cout, some cerr) =>
          { requests := [Req.getPVC, Req.delPVC, Req.createPVC], messages := [],
            outcome := Outcome.fatal
              (fatalCmdMsg ["create", "-n", userNS, "-f", tmpfile] cerr cout) }
        | (_, none) =>
          evictAll c.delPod userNS volumeName attachedpods
            [Req.getPVC, Req.delPVC, Req.createPVC] []

/-- The character of a fatal message at position 25, just after the fixed
text `Error while running cmd: `: the first character of the failing
command.  It discriminates fatal messages of different command sites. -/
def msgTag (s : String) : Option Char := s.data.get? 25

/-- A concrete cluster for witnesses and counterexamples: service labels
all empty, fetch and deletion of the claim succeed, the fetched manifest
is a single line, with the given pod list, creation result and per-pod
deletion results. -/
def testCluster (pods : List Pod) (createRes : String × Option String)
    (delPodRes : String → String × Option String) : Cluster :=
  { pods := pods, svcLabel := fun _ => "", podsOfService := fun _ => [],
    getPVC := ("apiVersion: v1", none), delPVC := ("", none),
    createPVC := createRes, delPod := delPodRes }

/-! Helper lemmas about the sanitizer loop. -/

theorem sanitizeLoop_cons_excluded (s : Bool) (x : String) (rest : List String)
    (hex : isExcludedLine x = true) :
    sanitizeLoop s (x :: rest) = sanitizeLoop s rest := by
  simp [sanitizeLoop, hex]

theorem sanitizeLoop_cons_clean (x : String) (rest : List String)
    (hex : isExcludedLine x = false) (hst : x ≠ "status:") :
    sanitizeLoop false (x :: rest) = (sanitizeLoop false rest).map (fun ys => x :: ys) := by
  simp [sanitizeLoop, hex, hst]

theorem sanitizeLoop_cons_space (x : String) (rest : List String) (t : List Char)
    (hd : x.data = ' ' :: t) :
    sanitizeLoop true (x :: rest) = sanitizeLoop true rest := by
  have hst : x ≠ "status:" := by
    intro he
    rw [he] at hd
    have hh : ("status:").data.head? = some ' ' := by rw [hd]; rfl
    exact absurd hh (by decide)
  by_cases hex : isExcludedLine x
  · simp [sanitizeLoop, hex]
  · simp [sanitizeLoop, hex, hst, hd]

theorem sanitizeLoop_clean_append (xs : List String)
    (h : ∀ l ∈ xs, isExcludedLine l = false ∧ l ≠ "status:") (rest : List String) :
    sanitizeLoop false (xs ++ rest) = (sanitizeLoop false rest).map (fun ys => xs ++ ys) := by
  induction xs with
  | nil => simp
  | cons x xs ih =>
    have hx := h x (by simp)
    have hxs : ∀ l ∈ xs, isExcludedLine l = false ∧ l ≠ "status:" :=
      fun l hl => h l (by simp [hl])
    rw [List.cons_append, sanitizeLoop_cons_clean x _ hx.1 hx.2, ih hxs]
    cases hr : sanitizeLoop false rest <;> simp

theorem sanitizeLoop_block_skip (block : List String)
    (h : ∀ l ∈ block, l.data.head? = some ' ') (rest : List String) :
    sanitizeLoop true (block ++ rest) = sanitizeLoop true rest := by
  induction block with
  | nil => rfl
  | cons b bs ih =>
    have hb := h b (by simp)
    have hbs : ∀ l ∈ bs, l.data.head? = some ' ' := fun l hl => h l (by simp [hl])
    obtain ⟨t, hd⟩ : ∃ t, b.data = ' ' :: t := by
      cases hdm : b.data with
      | nil => rw [hdm] at hb; simp at hb
      | cons c t =>
        rw [hdm] at hb
        simp only [List.head?_cons, Option.some.injEq] at hb
        subst hb
        exact ⟨t, rfl⟩
    rw [List.cons_append, sanitizeLoop_cons_space b _ t hd]
    exact ih hbs

theorem sanitizeLoop_kept (m : List String) :
    ∀ (s : Bool) (out : List String), sanitizeLoop s m = some out →
      ∀ t ∈ out, isExcludedLine t = false ∧ t ≠ "status:" := by
  induction m with
  | nil =>
    intro s out h t ht
    simp only [sanitizeLoop, Option.some.injEq] at h
    subst h
    simp at ht
  | cons x xs ih =>
    intro s out h t ht
    simp only [sanitizeLoop] at h
    split at h
    · exact ih _ _ h t ht
    · split at h
      · exact ih _ _ h t ht
      · rename_i hex hst
        split at h
        · split at h
          · cases h
          · split at h
            · exact ih _ _ h t ht
            · rw [Option.map_eq_some'] at h
              obtain ⟨ys, hys, hout⟩ := h
              subst hout
              rcases List.mem_cons.mp ht with h1 | h1
              · subst h1
                exact ⟨by simpa using hex, hst⟩
              · exact ih _ _ hys t h1
        · rw [Option.map_eq_some'] at h
          obtain ⟨ys, hys, hout⟩ := h
          subst hout
          rcases List.mem_cons.mp ht with h1 | h1
          · subst h1
            exact ⟨by simpa using hex, hst⟩
          · exact ih _ _ hys t h1

theorem sanitizeLoop_clean_id (out : List String)
    (h : ∀ t ∈ out, isExcludedLine t = false ∧ t ≠ "status:") :
    sanitizeLoop false out = some out := by
  have hh := sanitizeLoop_clean_append out h []
  simpa [sanitizeLoop] using hh

theorem sanitizeLoop_sublist (m : List String) :
    ∀ (s : Bool) (out : List String), sanitizeLoop s m = some out → out.Sublist m := by
  induction m with
  | nil =>
    intro s out h
    simp only [sanitizeLoop, Option.some.injEq] at h
    subst h
    exact List.Sublist.refl []
  | cons x xs ih =>
    intro s out h
    simp only [sanitizeLoop] at h
    split at h
    · exact (ih _ _ h).cons x
    · split at h
      · exact (ih _ _ h).cons x
      · split at h
        · split at h
          · cases h
          · split at h
            · exact (ih _ _ h).cons x
            · rw [Option.map_eq_some'] at h
              obtain ⟨ys, hys, hout⟩ := h
              subst hout
              exact (ih _ _ hys).cons₂ x
        · rw [Option.map_eq_some'] at h
          obtain ⟨ys, hys, hout⟩ := h
          subst hout
          exact (ih _ _ hys).cons₂ x

theorem sanitizeLoop_cons_status (s : Bool) (rest : List String) :
    sanitizeLoop s ("status:" :: rest) = sanitizeLoop true rest := rfl

theorem sanitizeLoop_empty_in_status (rest : List String) :
    sanitizeLoop true ("" :: rest) = none := rfl

theorem sanitizeLoop_excluded_mid (l : String) (hex : isExcludedLine l = true)
    (before after : List String) :
    ∀ s, sanitizeLoop s (before ++ l :: after) = sanitizeLoop s (before ++ after) := by
  induction before with
  | nil =>
    intro s
    exact sanitizeLoop_cons_excluded s l after hex
  | cons b bs ih =>
    intro s
    simp only [List.cons_append, sanitizeLoop]
    split
    · exact ih s
    · split
      · exact ih true
      · split
        · cases hdm : b.data with
          | nil => rfl
          | cons c t =>
            by_cases hc : c = ' '
            · simp only [if_pos hc]
              exact ih true
            · simp only [if_neg hc]
              exact congrArg _ (ih false)
        · exact congrArg _ (ih false)

/-! Claim theorems about the sanitizer. -/

/-- C1 as stated fails on the code in three ways, exhibited here on
concrete manifests: a line before the block whose trimmed content matches
an exclusion pattern is removed as well; a block line indented with a tab
is kept, because the code compares the first character against a space
character only; and when the line ending the block is empty the scan
panics instead of preserving it. -/
theorem sanitize_status_block_cex :
    sanitize ["selfLink: a", "status:", " x", "b"] ≠ some ["selfLink: a", "b"] ∧
      sanitize ["status:", "\tx", "b"] ≠ some ["b"] ∧
      sanitize ["status:", " x", "", "b"] ≠ some ["", "b"] := by
  refine ⟨?_, ?_, ?_⟩ <;> decide

/-- C1 (amended): for every manifest made of lines `before`, a line
literally equal to `status:`, N block lines each beginning with a space
character, and lines `after` whose first line (if any) is non-empty and
does not begin with a space -- provided no line of `before` or `after` has
trimmed content starting with an exclusion pattern and none equals
`status:` -- sanitization removes exactly the `status:` line and the N
block lines, and preserves `before` and `after` verbatim and in order. -/
theorem sanitize_status_block (before block after : List String)
    (hbefore : ∀ l ∈ before, isExcludedLine l = false ∧ l ≠ "status:")
    (hblock : ∀ l ∈ block, l.data.head? = some ' ')
    (hafter : ∀ l ∈ after, isExcludedLine l = false ∧ l ≠ "status:")
    (hhead : ∀ a t, after = a :: t → a.data.head? ≠ some ' ' ∧ a ≠ "") :
    sanitize (before ++ "status:" :: (block ++ after)) = some (before ++ after) := by
  unfold sanitize
  rw [sanitizeLoop_clean_append before hbefore, sanitizeLoop_cons_status,
    sanitizeLoop_block_skip block hblock]
  cases after with
  | nil => simp [sanitizeLoop]
  | cons a t =>
    obtain ⟨hh1, hh2⟩ := hhead a t rfl
    have ha := hafter a (by simp)
    have hat : ∀ l ∈ t, isExcludedLine l = false ∧ l ≠ "status:" :=
      fun l hl => hafter l (by simp [hl])
    obtain ⟨c, cs, hd, hc⟩ : ∃ c cs, a.data = c :: cs ∧ c ≠ ' ' := by
      cases hdm : a.data with
      | nil =>
        exfalso
        apply hh2
        cases a with
        | mk d =>
          simp only at hdm
          rw [hdm]
      | cons c cs =>
        exact ⟨c, cs, rfl, fun he => hh1 (by rw [hdm, he]; rfl)⟩
    have hstep : sanitizeLoop true (a :: t) = (sanitizeLoop false t).map (fun ys => a :: ys) := by
      simp [sanitizeLoop, ha.1, ha.2, hd, hc]
    rw [hstep, sanitizeLoop_clean_id t hat]
    simp

/-- C1 witness: a concrete manifest with one line before the block, one
indented block line, and one line after. -/
theorem sanitize_status_block_witness :
    sanitize ["metadata:", "status:", " phase: Bound", "spec:"] = some ["metadata:", "spec:"] :=
  sanitize_status_block ["metadata:"] [" phase: Bound"] ["spec:"] (by decide) (by decide)
    (by decide)
    (by
      intro a t h
      injection h with h1 h2
      subst h1
      exact ⟨by decide, by decide⟩)

/-- C4: for every manifest and every line whose trimmed content starts
with one of the fixed exclusion patterns, sanitization removes that line
and only that line: the output equals the output for the manifest with
that line removed, so the presence of no other line is affected. -/
theorem sanitize_removes_excluded_line_only (before after : List String) (l : String)
    (hex : isExcludedLine l = true) :
    sanitize (before ++ l :: after) = sanitize (before ++ after) :=
  sanitizeLoop_excluded_mid l hex before after false

/-- C4 witness: removing a trimmed `selfLink` line from a concrete
manifest. -/
theorem sanitize_removes_excluded_line_only_witness :
    isExcludedLine "  selfLink: /x" = true ∧
      sanitize ["metadata:", "  selfLink: /x", "  name: foo"] =
        sanitize ["metadata:", "  name: foo"] :=
  ⟨by decide,
    sanitize_removes_excluded_line_only ["metadata:"] ["  name: foo"] "  selfLink: /x"
      (by decide)⟩

/-- C5: sanitization is idempotent: when sanitizing a manifest completes
with some output, sanitizing that output yields it unchanged. -/
theorem sanitize_idempotent (m out : List String) (h : sanitize m = some out) :
    sanitize out = some out :=
  sanitizeLoop_clean_id out (sanitizeLoop_kept m false out h)

/-- C5 witness: a concrete manifest whose sanitized output is sanitized
again without change. -/
theorem sanitize_idempotent_witness : sanitize ["b"] = some ["b"] :=
  sanitize_idempotent ["status:", " a", "b", "uid: 3"] ["b"] (by decide)

/-- C9: for every input manifest on which sanitization completes, the
output is a sublist of the input lines: every output line appears verbatim
in the input and the relative order of output lines equals their relative
order in the input. -/
theorem sanitize_output_sublist (m out : List String) (h : sanitize m = some out) :
    out.Sublist m :=
  sanitizeLoop_sublist m false out h

/-- C9 witness: the sanitized output of a concrete manifest is a sublist
of it. -/
theorem sanitize_output_sublist_witness :
    List.Sublist ["a", "b"] ["a", "uid: 1", "status:", " x", "b"] :=
  sanitize_output_sublist ["a", "uid: 1", "status:", " x", "b"] ["a", "b"] (by decide)

/-- C10: inside a `status:` block the loop reads the first character of
the current line without checking non-emptiness; on every manifest whose
`status:` block is followed by an empty line before any block-ending line,
the error branch of the Option-returning indexing is reached and
sanitization returns none instead of an output. -/
theorem sanitize_empty_line_in_status_panics (pre block rest : List String)
    (hpre : ∀ l ∈ pre, isExcludedLine l = false ∧ l ≠ "status:")
    (hblock : ∀ l ∈ block, l.data.head? = some ' ') :
    sanitize (pre ++ "status:" :: (block ++ "" :: rest)) = none := by
  unfold sanitize
  rw [sanitizeLoop_clean_append pre hpre, sanitizeLoop_cons_status,
    sanitizeLoop_block_skip block hblock, sanitizeLoop_empty_in_status]
  rfl

/-- C10 witness: a concrete manifest with an empty line inside the status
block. -/
theorem sanitize_empty_line_in_status_panics_witness :
    sanitize ["a", "status:", " x", "", "b"] = none :=
  sanitize_empty_line_in_status_panics ["a"] [" x"] ["b"] (by decide) (by decide)

/-! Claim theorems about pod discovery and service-label expansion. -/

theorem flatMap_single (a f : String) (vs : List String)
    (h : (vs.filter (fun v => v = f)).length ≤ 1) :
    vs.flatMap (fun v => if v = f then [a] else []) = if f ∈ vs then [a] else [] := by
  induction vs with
  | nil => rfl
  | cons v vs ih =>
    rw [List.flatMap_cons]
    by_cases hv : v = f
    · subst hv
      rw [List.filter_cons_of_pos (by simp)] at h
      simp only [List.length_cons] at h
      have h0 : (vs.filter (fun x => decide (x = v))).length = 0 := by omega
      have hnil := List.length_eq_zero.mp h0
      have hnin : v ∉ vs := by
        intro hm
        have hmem : v ∈ vs.filter (fun x => decide (x = v)) :=
          List.mem_filter.mpr ⟨hm, by simp⟩
        rw [hnil] at hmem
        simp at hmem
      have hfm : vs.flatMap (fun x => if x = v then [a] else []) = [] := by
        rw [List.flatMap_eq_nil_iff]
        intro x hx
        have hne : x ≠ v := fun he => hnin (he ▸ hx)
        simp [hne]
      simp [hfm]
    · rw [List.filter_cons_of_neg (by simp [hv])] at h
      have hne : f ≠ v := fun he => hv he.symm
      simp [hv, ih h, hne]

/-- C6 fails as stated: the scan records a pod once per matching volume
declaration (the inner loop has no break), so a pod declaring two volumes
with the target name is recorded twice and the returned list has a
duplicate. -/
theorem findPodsAttachedtoPVC_cex :
    ¬ (findPodsAttachedtoPVC "v" [{ name := "p", volumes := ["v", "v"] }]).Nodup := by
  decide

/-- C6 (amended): the scan records, in pod-list order, the name of each
pod once per declared volume whose name equals the target claim name.
When the listed pod names are distinct and each pod declares at most one
volume with the target name, the result is exactly the names of the pods
declaring such a volume, in the order the pods were listed, without
duplicates. -/
theorem findPodsAttachedtoPVC_nodup (findVolume : String) (pods : List Pod)
    (hnames : (pods.map Pod.name).Nodup)
    (hvols : ∀ p ∈ pods, (p.volumes.filter (fun v => v = findVolume)).length ≤ 1) :
    findPodsAttachedtoPVC findVolume pods =
      (pods.filter (fun p => findVolume ∈ p.volumes)).map Pod.name ∧
    (findPodsAttachedtoPVC findVolume pods).Nodup := by
  have heq : findPodsAttachedtoPVC findVolume pods =
      (pods.filter (fun p => findVolume ∈ p.volumes)).map Pod.name := by
    induction pods with
    | nil => rfl
    | cons p ps ih =>
      have h1 := hvols p (by simp)
      have hps : ∀ q ∈ ps, (q.volumes.filter (fun v => v = findVolume)).length ≤ 1 :=
        fun q hq => hvols q (by simp [hq])
      have ihe := ih (by simpa using (List.nodup_cons.mp (by simpa using hnames)).2) hps
      unfold findPodsAttachedtoPVC at ihe ⊢
      rw [List.flatMap_cons, flatMap_single p.name findVolume p.volumes h1, ihe]
      by_cases hm : findVolume ∈ p.volumes
      · rw [if_pos hm, List.filter_cons_of_pos (by simpa using hm), List.map_cons]
        rfl
      · rw [if_neg hm, List.filter_cons_of_neg (by simpa using hm), List.nil_append]
  refine ⟨heq, ?_⟩
  rw [heq]
  exact hnames.sublist ((List.filter_sublist pods).map Pod.name)

/-- C6 witness: two distinctly named pods, each declaring the target
volume once. -/
theorem findPodsAttachedtoPVC_nodup_witness :
    findPodsAttachedtoPVC "v" [⟨"p", ["v"]⟩, ⟨"q", ["w", "v"]⟩, ⟨"r", ["w"]⟩] = ["p", "q"] ∧
      (findPodsAttachedtoPVC "v" [⟨"p", ["v"]⟩, ⟨"q", ["w", "v"]⟩, ⟨"r", ["w"]⟩]).Nodup := by
  have h := findPodsAttachedtoPVC_nodup "v" [⟨"p", ["v"]⟩, ⟨"q", ["w", "v"]⟩, ⟨"r", ["w"]⟩]
    (by decide) (by decide)
  exact ⟨by rw [h.1]; decide, h.2⟩

/-- C7: the service-label expansion is single-pass: the resulting
attached-pod list is the initial list followed by, for each pod of the
initial list in order, the pods of its service when its label is
non-empty.  The label of a pod appended during the loop is never read and
contributes nothing: the result is determined by the labels of the initial
pods alone. -/
theorem expandPods_single_pass (svcLabel : String → String)
    (podsOfService : String → List String) (attached : List String) :
    expandPods svcLabel podsOfService attached =
      attached ++ attached.flatMap
        (fun pod => if svcLabel pod = "" then [] else podsOfService (svcLabel pod)) := by
  suffices h : ∀ xs acc, expandLoop svcLabel podsOfService xs acc =
      acc ++ xs.flatMap
        (fun pod => if svcLabel pod = "" then [] else podsOfService (svcLabel pod)) by
    exact h attached attached
  intro xs
  induction xs with
  | nil => intro acc; simp [expandLoop]
  | cons x xs ih =>
    intro acc
    by_cases hx : svcLabel x = ""
    · simp [expandLoop, hx, ih]
    · simp [expandLoop, hx, ih, List.append_assoc]

/-! Claim theorems about the workflow runs. -/

theorem msgTag_create (ns tmp e o : String) :
    msgTag (fatalCmdMsg ["create", "-n", ns, "-f", tmp] e o) = some 'c' := rfl

theorem msgTag_delete (ns v e o : String) :
    msgTag (fatalCmdMsg ["delete", "-n", ns, "pvc", v] e o) = some 'd' := rfl

theorem evictAll_cons_eq (delPod : String → String × Option String)
    (userNS volumeName pod : String) (rest : List String) (reqs : List Req)
    (msgs : List String) :
    evictAll delPod userNS volumeName (pod :: rest) reqs msgs =
      match delPod pod with
      | (output, some e) =>
        { requests := reqs ++ [Req.delPod pod], messages := msgs,
          outcome := Outcome.fatal (fatalCmdMsg ["delete", "-n", userNS, "pod", pod] e output) }
      | (_, none) =>
        evictAll delPod userNS volumeName rest (reqs ++ [Req.delPod pod])
          (msgs ++ [successPodMsg pod volumeName]) := rfl

theorem evictAll_fail (delPod : String → String × Option String) (userNS volumeName : String)
    (p out e : String) (hfail : delPod p = (out, some e)) :
    ∀ (ps : List String) (qs : List String) (reqs : List Req) (msgs : List String),
      (∀ x ∈ ps, (delPod x).2 = none) →
      evictAll delPod userNS volumeName (ps ++ p :: qs) reqs msgs =
        { requests := reqs ++ ps.map Req.delPod ++ [Req.delPod p],
          messages := msgs ++ ps.map (fun x => successPodMsg x volumeName),
          outcome := Outcome.fatal (fatalCmdMsg ["delete", "-n", userNS, "pod", p] e out) } := by
  intro ps
  induction ps with
  | nil =>
    intro qs reqs msgs hok
    rw [List.nil_append, evictAll_cons_eq, hfail]
    simp
  | cons x ps ih =>
    intro qs reqs msgs hok
    have hx : (delPod x).2 = none := hok x (by simp)
    have hxo : delPod x = ((delPod x).1, none) := by
      rw [← hx]
    have hstep : evictAll delPod userNS volumeName (x :: (ps ++ p :: qs)) reqs msgs =
        evictAll delPod userNS volumeName (ps ++ p :: qs) (reqs ++ [Req.delPod x])
          (msgs ++ [successPodMsg x volumeName]) := by
      rw [evictAll_cons_eq, hxo]
    rw [List.cons_append, hstep, ih qs _ _ (fun y hy => hok y (by simp [hy]))]
    simp [List.append_assoc]

/-- C2 fails as stated: on a concrete cluster where two pods are attached
to the claim and the deletion of the first fails, the workflow halts at
the first failure -- the second attached pod is never deleted and no
per-pod aggregation occurs. -/
theorem erasePVC_eviction_cex :
    expandPods
        (testCluster [⟨"p1", ["v"]⟩, ⟨"p2", ["v"]⟩] ("", none)
          (fun p => if p = "p1" then ("gone", some "boom") else ("", none))).svcLabel
        (testCluster [⟨"p1", ["v"]⟩, ⟨"p2", ["v"]⟩] ("", none)
          (fun p => if p = "p1" then ("gone", some "boom") else ("", none))).podsOfService
        (findPodsAttachedtoPVC "v"
          (testCluster [⟨"p1", ["v"]⟩, ⟨"p2", ["v"]⟩] ("", none)
            (fun p => if p = "p1" then ("gone", some "boom") else ("", none))).pods) =
      ["p1", "p2"] ∧
    (erasePVCrun
        (testCluster [⟨"p1", ["v"]⟩, ⟨"p2", ["v"]⟩] ("", none)
          (fun p => if p = "p1" then ("gone", some "boom") else ("", none)))
        "ns" "v" "tmp").requests =
      [Req.getPVC, Req.delPVC, Req.createPVC, Req.delPod "p1"] ∧
    Req.delPod "p2" ∉
      (erasePVCrun
        (testCluster [⟨"p1", ["v"]⟩, ⟨"p2", ["v"]⟩] ("", none)
          (fun p => if p = "p1" then ("gone", some "boom") else ("", none)))
        "ns" "v" "tmp").requests := by
  refine ⟨?_, ?_, ?_⟩ <;> decide

/-- C2 (amended): pod deletions are attempted sequentially in attached-set
order; the first failing deletion halts the workflow fatally with that
pod's command, error and output, and the pods after it in the attached set
are not attempted -- the issued requests are exactly the successful
deletions before it and the failed one. -/
theorem erasePVC_eviction_stops_at_first_failure (c : Cluster)
    (userNS volumeName tmpfile gout dout cout p out e : String)
    (yaml : List String) (ps qs : List String)
    (hg : c.getPVC = (gout, none)) (hy : sanitize (linesOf gout) = some yaml)
    (hd : c.delPVC = (dout, none)) (hc : c.createPVC = (cout, none))
    (hatt : expandPods c.svcLabel c.podsOfService (findPodsAttachedtoPVC volumeName c.pods) =
      ps ++ p :: qs)
    (hok : ∀ x ∈ ps, (c.delPod x).2 = none) (hfail : c.delPod p = (out, some e)) :
    erasePVCrun c userNS volumeName tmpfile =
      { requests := [Req.getPVC, Req.delPVC, Req.createPVC] ++ ps.map Req.delPod ++
          [Req.delPod p],
        messages := ps.map (fun x => successPodMsg x volumeName),
        outcome := Outcome.fatal (fatalCmdMsg ["delete", "-n", userNS, "pod", p] e out) } := by
  unfold erasePVCrun
  rw [hg, hatt]
  simp only [hy, hd, hc]
  rw [evictAll_fail c.delPod userNS volumeName p out e hfail ps qs _ _ hok]
  simp

/-- C2 witness: two attached pods, the first deletion succeeds and the
second fails; the run halts at the second pod. -/
theorem erasePVC_eviction_stops_at_first_failure_witness :
    erasePVCrun
        (testCluster [⟨"p1", ["v"]⟩, ⟨"p2", ["v"]⟩, ⟨"p3", ["v"]⟩] ("", none)
          (fun p => if p = "p2" then ("gone", some "boom") else ("", none)))
        "ns" "v" "tmp" =
      { requests := [Req.getPVC, Req.delPVC, Req.createPVC] ++ [Req.delPod "p1"] ++
          [Req.delPod "p2"],
        messages := [successPodMsg "p1" "v"],
        outcome := Outcome.fatal (fatalCmdMsg ["delete", "-n", "ns", "pod", "p2"] "boom" "gone") } := by
  have h := erasePVC_eviction_stops_at_first_failure
    (testCluster [⟨"p1", ["v"]⟩, ⟨"p2", ["v"]⟩, ⟨"p3", ["v"]⟩] ("", none)
      (fun p => if p = "p2" then ("gone", some "boom") else ("", none)))
    "ns" "v" "tmp" "apiVersion: v1" "" "" "p2" "gone" "boom" ["apiVersion: v1"]
    ["p1"] ["p3"] rfl (by decide) rfl rfl (by decide) (by decide) (by decide)
  simpa using h

/-- C3: for every run in which the claim deletion succeeds but the
subsequent creation fails, the workflow halts with a fatal failure whose
message is the create-site message with the command output attached; that
message differs from every delete-site message; and no pod deletion
request is issued. -/
theorem erasePVC_create_failure_no_eviction (c : Cluster)
    (userNS volumeName tmpfile gout dout cout cerr : String) (yaml : List String)
    (hg : c.getPVC = (gout, none)) (hy : sanitize (linesOf gout) = some yaml)
    (hd : c.delPVC = (dout, none)) (hc : c.createPVC = (cout, some cerr)) :
    (erasePVCrun c userNS volumeName tmpfile).outcome =
        Outcome.fatal (fatalCmdMsg ["create", "-n", userNS, "-f", tmpfile] cerr cout) ∧
      (∀ ns v e o, fatalCmdMsg ["create", "-n", userNS, "-f", tmpfile] cerr cout ≠
        fatalCmdMsg ["delete", "-n", ns, "pvc", v] e o) ∧
      (∀ p, Req.delPod p ∉ (erasePVCrun c userNS volumeName tmpfile).requests) ∧
      (∃ pre, fatalCmdMsg ["create", "-n", userNS, "-f", tmpfile] cerr cout =
        pre ++ cout ++ "\n") := by
  have hrun : erasePVCrun c userNS volumeName tmpfile =
      { requests := [Req.getPVC, Req.delPVC, Req.createPVC], messages := [],
        outcome := Outcome.fatal
          (fatalCmdMsg ["create", "-n", userNS, "-f", tmpfile] cerr cout) } := by
    unfold erasePVCrun
    rw [hg]
    simp only [hy, hd, hc]
  refine ⟨by rw [hrun], ?_, ?_, ?_⟩
  · intro ns v e o hcontra
    have htag := congrArg msgTag hcontra
    rw [msgTag_create, msgTag_delete] at htag
    exact absurd htag (by decide)
  · intro p
    rw [hrun]
    intro hmem
    simp at hmem
  · exact ⟨"Error while running cmd: " ++
      String.intercalate " " ["create", "-n", userNS, "-f", tmpfile] ++ " Error: " ++ cerr
      ++ " Output: ", rfl⟩

/-- C3 witness: creation fails on a concrete cluster with one attached
pod; the outcome is the create-site fatal message and the attached pod is
never deleted. -/
theorem erasePVC_create_failure_no_eviction_witness :
    (erasePVCrun (testCluster [⟨"p1", ["v"]⟩] ("cout", some "cerr") (fun _ => ("", none)))
        "ns" "v" "tmp").outcome =
      Outcome.fatal (fatalCmdMsg ["create", "-n", "ns", "-f", "tmp"] "cerr" "cout") ∧
    Req.delPod "p1" ∉
      (erasePVCrun (testCluster [⟨"p1", ["v"]⟩] ("cout", some "cerr") (fun _ => ("", none)))
        "ns" "v" "tmp").requests :=
  ⟨(erasePVC_create_failure_no_eviction
      (testCluster [⟨"p1", ["v"]⟩] ("cout", some "cerr") (fun _ => ("", none)))
      "ns" "v" "tmp" "apiVersion: v1" "" "cout" "cerr" ["apiVersion: v1"]
      rfl (by decide) rfl rfl).1,
   (erasePVC_create_failure_no_eviction
      (testCluster [⟨"p1", ["v"]⟩] ("cout", some "cerr") (fun _ => ("", none)))
      "ns" "v" "tmp" "apiVersion: v1" "" "cout" "cerr" ["apiVersion: v1"]
      rfl (by decide) rfl rfl).2.2.1 "p1"⟩

/-- C8 fails as stated: on a concrete cluster where no pod references the
claim and every command succeeds, the run performs export, delete and
create, issues no pod deletion and succeeds -- but the only message
printed is the final success line: no no-pods warning is reported to the
operator. -/
theorem erasePVC_no_pods_cex :
    (erasePVCrun (testCluster [⟨"q", ["w"]⟩] ("", none) (fun _ => ("", none)))
        "ns" "v" "tmp").requests = [Req.getPVC, Req.delPVC, Req.createPVC] ∧
    (erasePVCrun (testCluster [⟨"q", ["w"]⟩] ("", none) (fun _ => ("", none)))
        "ns" "v" "tmp").messages = [successVolumeMsg "v"] ∧
    (erasePVCrun (testCluster [⟨"q", ["w"]⟩] ("", none) (fun _ => ("", none)))
        "ns" "v" "tmp").outcome = Outcome.success := by
  refine ⟨?_, ?_, ?_⟩ <;> decide

/-- C8 (amended): for every run in which zero pods reference the claim and
the get, delete and create commands succeed, discovery returns the empty
pod set, the workflow still issues the export, delete and create requests,
issues no pod deletion, and completes successfully; the only message
printed is the final success line, so no no-pods warning is reported. -/
theorem erasePVC_no_pods (c : Cluster) (userNS volumeName tmpfile gout dout cout : String)
    (yaml : List String)
    (hzero : ∀ p ∈ c.pods, volumeName ∉ p.volumes)
    (hg : c.getPVC = (gout, none)) (hy : sanitize (linesOf gout) = some yaml)
    (hd : c.delPVC = (dout, none)) (hc : c.createPVC = (cout, none)) :
    findPodsAttachedtoPVC volumeName c.pods = [] ∧
    erasePVCrun c userNS volumeName tmpfile =
      { requests := [Req.getPVC, Req.delPVC, Req.createPVC],
        messages := [successVolumeMsg volumeName],
        outcome := Outcome.success } := by
  have hfind : findPodsAttachedtoPVC volumeName c.pods = [] := by
    unfold findPodsAttachedtoPVC
    rw [List.flatMap_eq_nil_iff]
    intro p hp
    rw [List.flatMap_eq_nil_iff]
    intro v hv
    have hne : v ≠ volumeName := fun he => hzero p hp (he ▸ hv)
    simp [hne]
  refine ⟨hfind, ?_⟩
  unfold erasePVCrun
  rw [hg, hfind]
  simp only [hy, hd, hc]
  rw [show expandPods c.svcLabel c.podsOfService [] = [] from rfl]
  simp [evictAll]

/-- C8 witness: a concrete cluster whose single pod mounts a different
volume. -/
theorem erasePVC_no_pods_witness :
    findPodsAttachedtoPVC "v"
        (testCluster [⟨"q", ["w"]⟩] ("", none) (fun _ => ("", none))).pods = [] ∧
    erasePVCrun (testCluster [⟨"q", ["w"]⟩] ("", none) (fun _ => ("", none))) "ns" "v" "tmp" =
      { requests := [Req.getPVC, Req.delPVC, Req.createPVC],
        messages := [successVolumeMsg "v"],
        outcome := Outcome.success } :=
  erasePVC_no_pods (testCluster [⟨"q", ["w"]⟩] ("", none) (fun _ => ("", none)))
    "ns" "v" "tmp" "apiVersion: v1" "" "" ["apiVersion: v1"]
    (by decide) rfl (by decide) rfl rfl

end GoFabric8
